import Mathlib

/-!
Shallow embedding of the event-management service (backend REST handlers and
the dashboard's event-status helper) and proofs about it.

Conventions of the embedding:
* JavaScript timestamps (`Date.now()`, parsed `Date` values) are modelled as
  `Int` milliseconds; `Date` comparison in the source is numeric comparison.
* JavaScript numbers in the rating payload are modelled as `ℚ`; the payloads
  exercised by the claims are plain decimal numbers, on which rational
  arithmetic coincides with the source's float arithmetic.
* A missing string field of a JSON body and the empty string are both falsy
  in the source (`!userName`); both are modelled as `""`.
* `String.prototype.trim()` is modelled by `jsTrim`, which removes the ASCII
  whitespace characters from both ends of the string (the payloads in the
  claims use only ASCII whitespace).
* Each handler becomes a pure function from the store it reads to the store
  it writes back plus the HTTP response data (status code, error/success
  message).  File-backed handlers read a JSON file wholesale and rewrite it;
  database-backed handlers issue one query, with the unique-constraint
  behaviour of the hosted store modelled explicitly where a claim needs it.
-/

/-- ASCII whitespace characters removed by JavaScript `trim()`
(space, tab, line feed, vertical tab, form feed, carriage return). -/
def isJsSpace (c : Char) : Bool :=
  c = ' ' || c = '\t' || c = '\n' || c = '\x0b' || c = '\x0c' || c = '\r'

/-- JavaScript `String.prototype.trim()` on the ASCII whitespace set:
drop whitespace from both ends of the string. -/
def jsTrim (s : String) : String :=
  String.mk (((s.toList.dropWhile isJsSpace).reverse.dropWhile isJsSpace).reverse)

/-- JavaScript `parseInt` applied to the decimal rendering of a number:
truncation toward zero. -/
def jsParseInt (q : ℚ) : Int :=
  if 0 ≤ q then ⌊q⌋ else ⌈q⌉

/-- JavaScript `Number.prototype.toFixed(1)` followed by `parseFloat`:
round to one decimal place, ties away from zero for the nonnegative values
arising here (`toFixed` picks the larger candidate on a tie). -/
def toFixed1 (q : ℚ) : ℚ :=
  ((⌊q * 10 + 1 / 2⌋ : Int) : ℚ) / 10

/-! ## Event status classifier (frontend/dashboard/src/EventsScreen.jsx) -/

/-- The status object returned by `getEventStatus`: a label and CSS classes. -/
structure EventStatus where
  label : String
  color : String
deriving Repr, DecidableEq

/-- `getEventStatus(start, end)` from EventsScreen.jsx, with the current time
`now` made an explicit argument and the three `Date` values as millisecond
timestamps. -/
def getEventStatus (start finish now : Int) : EventStatus :=
  if start ≤ now ∧ now ≤ finish then
    ⟨"On Going", "bg-green-100 text-green-700"⟩
  else if now < start then
    ⟨"Up Coming", "bg-yellow-100 text-yellow-700"⟩
  else
    ⟨"Ended", "bg-red-100 text-red-700"⟩

/-! ## Stores and response shape -/

/-- One row of `attendance.json` (file-backed) or of the `attendance` table. -/
structure AttendanceRecord where
  attendance_id : Int
  event_id : Int
  user_name : String
  created_at : Int
deriving Repr, DecidableEq

/-- One row of `ratings.json` (file-backed) or of the `ratings` table.
The stored `rating` field is a JavaScript number, hence `ℚ` here. -/
structure RatingRecord where
  rating_id : Int
  event_id : Int
  user_name : String
  rating : ℚ
  created_at : Int
deriving Repr, DecidableEq

/-- One row of `comments.json` (file-backed) or of the `comments` table. -/
structure Comment where
  id : Int
  event_id : Int
  author_name : String
  comment_text : String
  created_at : Int
deriving Repr, DecidableEq

/-- Result of a write handler: the store as rewritten, the HTTP status, and
the `error` / `message` fields of the JSON response (absent when unused). -/
structure StoreResp (α : Type) where
  store : List α
  status : Nat
  error : Option String
  message : Option String
deriving Repr, DecidableEq

/-! ## Attendance API (backend/index.js, file-backed) -/

/-- `POST /api/events/:eventId/attend` (file-backed): validate the name,
reject a duplicate of the exact `(event_id, trimmed user_name)` pair, else
append a record whose `user_name` is stored trimmed.  `Date.now()` is the
argument `now` (it supplies both the generated id and `created_at`). -/
def postAttend (store : List AttendanceRecord) (eventId : Int)
    (userName : String) (now : Int) : StoreResp AttendanceRecord :=
  if jsTrim userName = "" then
    ⟨store, 400, some "User name is required", none⟩
  else if store.any (fun a => a.event_id == eventId && a.user_name == jsTrim userName) then
    ⟨store, 400, some "Already marked as attending", none⟩
  else
    ⟨store ++ [⟨now, eventId, jsTrim userName, now⟩], 201, none, none⟩

/-- `DELETE /api/events/:eventId/attend` (file-backed): reject only a falsy
(empty) name, then drop every record matching the exact, UNtrimmed pair. -/
def deleteAttend (store : List AttendanceRecord) (eventId : Int)
    (userName : String) : StoreResp AttendanceRecord :=
  if userName = "" then
    ⟨store, 400, some "User name is required", none⟩
  else
    ⟨store.filter (fun a => !(a.event_id == eventId && a.user_name == userName)),
      200, none, some "Attendance removed successfully"⟩

/-- `POST /api/events/:eventId/attend` (database variant, drafts of index.js):
the same validation, then an insert whose duplicate-key failure (error code
23505 raised by the store's unique constraint on the pair, modelled here as
the explicit key-existence condition) is mapped to the same 400 conflict. -/
def postAttendDb (db : List AttendanceRecord) (eventId : Int)
    (userName : String) (newId now : Int) : StoreResp AttendanceRecord :=
  if jsTrim userName = "" then
    ⟨db, 400, some "User name is required", none⟩
  else if db.any (fun a => a.event_id == eventId && a.user_name == jsTrim userName) then
    ⟨db, 400, some "Already marked as attending", none⟩
  else
    ⟨db ++ [⟨newId, eventId, jsTrim userName, now⟩], 201, none, none⟩

/-! ## Ratings API (backend/index.js file-backed; drafts database-backed) -/

/-- `POST /api/events/:eventId/rating` (file-backed): reject a blank name;
reject a falsy (`0`) or out-of-range rating (`rating < 1 || rating > 5` —
note this does not test integrality); reject a duplicate pair; else append a
record whose stored rating is `parseInt(rating)`. -/
def postRating (store : List RatingRecord) (eventId : Int)
    (userName : String) (rating : ℚ) (now : Int) : StoreResp RatingRecord :=
  if jsTrim userName = "" then
    ⟨store, 400, some "User name is required", none⟩
  else if rating = 0 ∨ rating < 1 ∨ rating > 5 then
    ⟨store, 400, some "Rating must be between 1 and 5", none⟩
  else if store.any (fun r => r.event_id == eventId && r.user_name == jsTrim userName) then
    ⟨store, 400, some "You have already rated this event", none⟩
  else
    ⟨store ++ [⟨now, eventId, jsTrim userName, (jsParseInt rating : ℚ), now⟩], 201, none, none⟩

/-- `POST /api/events/:eventId/rating` (database variant): identical
validation and stored value; the duplicate-key error 23505 of the store's
unique constraint (modelled as the key-existence condition) maps to 400. -/
def postRatingDb (db : List RatingRecord) (eventId : Int)
    (userName : String) (rating : ℚ) (newId now : Int) : StoreResp RatingRecord :=
  if jsTrim userName = "" then
    ⟨db, 400, some "User name is required", none⟩
  else if rating = 0 ∨ rating < 1 ∨ rating > 5 then
    ⟨db, 400, some "Rating must be between 1 and 5", none⟩
  else if db.any (fun r => r.event_id == eventId && r.user_name == jsTrim userName) then
    ⟨db, 400, some "You have already rated this event", none⟩
  else
    ⟨db ++ [⟨newId, eventId, jsTrim userName, (jsParseInt rating : ℚ), now⟩], 201, none, none⟩

/-- Response of `GET /api/events/:eventId/rating`. -/
structure RatingSummary where
  averageRating : ℚ
  totalRatings : Nat
  ratings : List RatingRecord
deriving Repr, DecidableEq

/-- Insert `x` into a list sorted descending by `lt`, skipping past the
strictly greater elements (stable: `x` lands before elements it ties with). -/
def insertDesc (lt : RatingRecord → RatingRecord → Bool) (x : RatingRecord) :
    List RatingRecord → List RatingRecord
  | [] => [x]
  | y :: ys => if lt y x then y :: insertDesc lt x ys else x :: y :: ys

/-- A stable sort placing elements on which `lt` holds first, modelling the
source's stable `Array.prototype.sort` with a numeric comparator. -/
def sortByDesc (lt : RatingRecord → RatingRecord → Bool) :
    List RatingRecord → List RatingRecord
  | [] => []
  | x :: xs => insertDesc lt x (sortByDesc lt xs)

/-- `GET /api/events/:eventId/rating`: filter this event's rows, sort them
newest-first by `created_at` (`(a, b) => new Date(b.created_at) - new
Date(a.created_at)`), and aggregate.  The aggregation text is identical in
the file-backed and database-backed variants (the database variant's
`.eq`/`.order` perform the same filter and sort). -/
def getRating (store : List RatingRecord) (eventId : Int) : RatingSummary :=
  let eventRatings :=
    sortByDesc (fun a b => b.created_at < a.created_at)
      (store.filter (fun r => r.event_id == eventId))
  let totalRatings := eventRatings.length
  let averageRating :=
    if totalRatings > 0 then
      toFixed1 ((eventRatings.map (fun r => r.rating)).sum / totalRatings)
    else 0
  ⟨averageRating, totalRatings, eventRatings⟩

/-! ## Comments API -/

/-- `POST /api/events/:eventId/comments` (file-backed, backend/index.js):
the guard is `!authorName || !commentText` — plain falsiness, NO trimming —
and the author name and text are stored as received. -/
def postCommentFile (store : List Comment) (eventId : Int)
    (authorName commentText : String) (now : Int) : StoreResp Comment :=
  if authorName = "" || commentText = "" then
    ⟨store, 400, some "Author name and comment text are required", none⟩
  else
    ⟨store ++ [⟨now, eventId, authorName, commentText, now⟩], 201, none, none⟩

/-- `POST /api/events/:eventId/comments` (database variant): rejects an
author name or comment text that is falsy OR blank after trimming, and
stores both fields trimmed. -/
def postCommentDb (db : List Comment) (eventId : Int)
    (authorName commentText : String) (newId now : Int) : StoreResp Comment :=
  if jsTrim authorName = "" then
    ⟨db, 400, some "Author name is required", none⟩
  else if jsTrim commentText = "" then
    ⟨db, 400, some "Comment text is required", none⟩
  else
    ⟨db ++ [⟨newId, eventId, jsTrim authorName, jsTrim commentText, now⟩], 201, none, none⟩

/-- `DELETE /api/comments/:commentId` (file-backed): keep every comment whose
id differs, rewrite the file, and always answer 200 with a success message. -/
def deleteComment (store : List Comment) (commentId : Int) : StoreResp Comment :=
  ⟨store.filter (fun c => !(c.id == commentId)), 200, none,
    some "Comment deleted successfully"⟩

/-! ## User-interest replacement (backend/routes/userinterests.routes.js) -/

/-- Worker for `jsSetDedup`: walk the list keeping the first occurrence of
each element, as iterating a JavaScript `Set` does. -/
def jsSetDedupGo (seen : List String) : List String → List String
  | [] => []
  | x :: xs =>
    if x ∈ seen then jsSetDedupGo seen xs
    else x :: jsSetDedupGo (x :: seen) xs

/-- `[...new Set(arr)]`: deduplicate keeping the first occurrence of each
element, preserving insertion order. -/
def jsSetDedup (l : List String) : List String :=
  jsSetDedupGo [] l

/-- `POST /interests/me`: coerce the body to a deduplicated string list
(`[]` unless `categories` is an array; `.map(String)` is the identity on the
string elements modelled here), delete every `interested_category` row of
this user, and bulk-insert one row `(userId, categoryId)` per remaining id.
The store is the `interested_category` table as `(user_id, category_id)`
pairs; the response body's `saved` list is returned alongside. -/
def replaceInterests (store : List (String × String)) (userId : String)
    (body : Option (List String)) : List (String × String) × Nat × List String :=
  let categories := match body with
    | some arr => jsSetDedup arr
    | none => []
  let afterDelete := store.filter (fun r => !(r.1 == userId))
  if categories = [] then (afterDelete, 200, [])
  else (afterDelete ++ categories.map (fun c => (userId, c)), 200, categories)

/-- First query of `GET /interests/me`: the `category_id`s of this user's
`interested_category` rows. -/
def myInterestIds (store : List (String × String)) (userId : String) : List String :=
  (store.filter (fun r => r.1 == userId)).map (fun r => r.2)

/-- Second query of `GET /interests/me`: the rows of the `categories` table
(id, name pairs) whose `category_id` is `.in` the id list.  When the id list
is empty the handler returns `[]` without querying. -/
def getMyInterests (store : List (String × String))
    (catTable : List (String × String)) (userId : String) : List (String × String) :=
  let ids := myInterestIds store userId
  if ids = [] then []
  else catTable.filter (fun c => c.1 ∈ ids)

/-! ## Organizer gate (requireOrganizer middleware) -/

/-- Worker for `jsReplaceOnce` on character lists: drop the leftmost
occurrence of `pat`, leaving everything else in place. -/
def jsReplaceOnceList (pat : List Char) : List Char → List Char
  | [] => []
  | c :: cs =>
    if pat.isPrefixOf (c :: cs) then List.drop pat.length (c :: cs)
    else c :: jsReplaceOnceList pat cs

/-- `String.prototype.replace(pat, '')` with a string pattern: remove the
first occurrence of `pat`, leave the rest of the string intact. -/
def jsReplaceOnce (s pat : String) : String :=
  String.mk (jsReplaceOnceList pat.toList s.toList)

/-- The identity `supabase.auth.getUser` resolves a token to. -/
structure AuthUser where
  email : String
deriving Repr, DecidableEq

/-- A row of the local `users` table as selected by the middleware. -/
structure DbUser where
  role : String
  full_name : String
  email : String
deriving Repr, DecidableEq

/-- The external collaborators of `requireOrganizer`: the auth layer's token
verification and the `users` table lookup by email (`.single()` yields an
error, hence `none`, when no row matches). -/
structure AuthEnv where
  getUser : String → Option AuthUser
  usersTable : String → Option DbUser

/-- Outcome of the middleware: an HTTP error response, or `next()` with
`req.user` set. -/
inductive AuthOutcome where
  | reject (status : Nat) (error : String)
  | proceed (user : DbUser)
deriving Repr, DecidableEq

/-- `requireOrganizer` (committee/expenses router): 401 without an
Authorization header or with an empty or unverifiable token; 403 when the
verified identity is missing from the `users` table or its role is not
`"organizer"`; otherwise pass control to the CRUD handler. -/
def requireOrganizer (env : AuthEnv) (authHeader : Option String) : AuthOutcome :=
  match authHeader with
  | none => .reject 401 "Authorization header required"
  | some h =>
    let token := jsReplaceOnce h "Bearer "
    if token = "" then .reject 401 "Bearer token required"
    else
      match env.getUser token with
      | none => .reject 401 "Invalid token"
      | some user =>
        match env.usersTable user.email with
        | none => .reject 403 "User not found"
        | some userData =>
          if userData.role ≠ "organizer" then .reject 403 "Organizer access required"
          else .proceed userData

/-! ## Helper lemmas -/

theorem insertDesc_perm (lt : RatingRecord → RatingRecord → Bool) (x : RatingRecord)
    (l : List RatingRecord) : List.Perm (insertDesc lt x l) (x :: l) := by
  induction l with
  | nil => simp [insertDesc]
  | cons y ys ih =>
    simp only [insertDesc]
    split
    · exact (ih.cons y).trans (List.Perm.swap x y ys)
    · exact List.Perm.refl _

theorem sortByDesc_perm (lt : RatingRecord → RatingRecord → Bool)
    (l : List RatingRecord) : List.Perm (sortByDesc lt l) l := by
  induction l with
  | nil => exact List.Perm.refl _
  | cons x xs ih => exact (insertDesc_perm lt x (sortByDesc lt xs)).trans (ih.cons x)

theorem jsSetDedupGo_mem (x : String) (l : List String) :
    ∀ seen, x ∈ jsSetDedupGo seen l ↔ x ∈ l ∧ x ∉ seen := by
  induction l with
  | nil => intro seen; simp [jsSetDedupGo]
  | cons y ys ih =>
    intro seen
    simp only [jsSetDedupGo]
    split
    · rw [ih seen]
      by_cases hxy : x = y
      · subst hxy; simp_all
      · simp [hxy]
    · by_cases hxy : x = y
      · subst hxy; simp_all
      · simp only [List.mem_cons, hxy, false_or, ih (y :: seen)]

theorem jsSetDedupGo_nodup (l : List String) :
    ∀ seen, (jsSetDedupGo seen l).Nodup := by
  induction l with
  | nil => intro seen; simp [jsSetDedupGo]
  | cons y ys ih =>
    intro seen
    simp only [jsSetDedupGo]
    split
    · exact ih seen
    · refine List.nodup_cons.mpr ⟨fun hmem => ?_, ih (y :: seen)⟩
      exact ((jsSetDedupGo_mem y ys (y :: seen)).mp hmem).2 (List.mem_cons_self y seen)

theorem jsSetDedup_mem (x : String) (l : List String) : x ∈ jsSetDedup l ↔ x ∈ l := by
  rw [jsSetDedup, jsSetDedupGo_mem]; simp

theorem jsSetDedup_nodup (l : List String) : (jsSetDedup l).Nodup :=
  jsSetDedupGo_nodup l []

/-! ## C1: event status classification -/

/-- C1 (counterexample): the claim asserts `"Ended"` whenever `now > end_time`
for EVERY pair of timestamps, but with `start_time = 10`, `end_time = 5`,
`now = 7` the classifier tests `now < startDate` before falling through to
`"Ended"` and returns `"Up Coming"` although `now > end_time`. -/
theorem getEventStatus_claim_fails_when_start_after_end :
    ¬ (((5 : Int) < 7) → (getEventStatus 10 5 7).label = "Ended") := by
  decide

/-- C1 (amended): whenever `start_time ≤ end_time`, the classifier returns
`"On Going"` for `start_time ≤ now ≤ end_time` (both boundaries inclusive,
including `start_time = end_time = now`), `"Up Coming"` for `now <
start_time`, and `"Ended"` for `now > end_time`. -/
theorem getEventStatus_classification (start finish now : Int) (h : start ≤ finish) :
    ((start ≤ now ∧ now ≤ finish) → (getEventStatus start finish now).label = "On Going") ∧
    (now < start → (getEventStatus start finish now).label = "Up Coming") ∧
    (finish < now → (getEventStatus start finish now).label = "Ended") := by
  unfold getEventStatus
  refine ⟨fun h1 => ?_, fun h1 => ?_, fun h1 => ?_⟩ <;>
    split_ifs <;> first | rfl | omega

/-- C1 (witness): the amended classification at `start = 0`, `end = 10`,
`now ∈ {3, -2, 11}` — and the inclusive boundary case `0 = 0 = 0`. -/
theorem getEventStatus_classification_witness :
    ((0 : Int) ≤ 10 ∧
      (((0 : Int) ≤ 3 ∧ (3 : Int) ≤ 10) → (getEventStatus 0 10 3).label = "On Going") ∧
      ((-2 : Int) < 0 → (getEventStatus 0 10 (-2)).label = "Up Coming") ∧
      ((10 : Int) < 11 → (getEventStatus 0 10 11).label = "Ended")) ∧
    ((0 : Int) ≤ 0 ∧
      (((0 : Int) ≤ 0 ∧ (0 : Int) ≤ 0) → (getEventStatus 0 0 0).label = "On Going")) :=
  ⟨⟨by decide, getEventStatus_classification 0 10 3 (by decide) |>.1,
      (getEventStatus_classification 0 10 (-2) (by decide)).2.1,
      (getEventStatus_classification 0 10 11 (by decide)).2.2⟩,
    by decide, (getEventStatus_classification 0 0 0 (by decide)).1⟩

/-! ## C8: comment deletion -/

/-- C8: deleting a comment id always answers 200 with a success message;
when no stored comment has the id the store is unchanged, and in general
exactly the comments with that id are removed and all others kept. -/
theorem deleteComment_spec (store : List Comment) (cid : Int) :
    (deleteComment store cid).status = 200 ∧
    (deleteComment store cid).message = some "Comment deleted successfully" ∧
    ((∀ c ∈ store, c.id ≠ cid) → (deleteComment store cid).store = store) ∧
    (∀ c, c ∈ (deleteComment store cid).store ↔ c ∈ store ∧ c.id ≠ cid) := by
  refine ⟨rfl, rfl, fun hnone => ?_, fun c => ?_⟩
  · simp only [deleteComment]
    refine List.filter_eq_self.mpr fun a ha => ?_
    simpa using hnone a ha
  · simp [deleteComment, List.mem_filter]

/-- C8 (witness): deleting the absent id 2 from a one-comment store answers
200, keeps the store unchanged, and membership matches the filter. -/
theorem deleteComment_spec_witness :
    (deleteComment [⟨1, 1, "a", "hi", 0⟩] 2).status = 200 ∧
    (deleteComment [⟨1, 1, "a", "hi", 0⟩] 2).store = [⟨1, 1, "a", "hi", 0⟩] ∧
    ((⟨1, 1, "a", "hi", 0⟩ : Comment) ∈ (deleteComment [⟨1, 1, "a", "hi", 0⟩] 2).store ↔
      (⟨1, 1, "a", "hi", 0⟩ : Comment) ∈ [(⟨1, 1, "a", "hi", 0⟩ : Comment)] ∧ (1 : Int) ≠ 2) :=
  ⟨(deleteComment_spec [⟨1, 1, "a", "hi", 0⟩] 2).1,
    (deleteComment_spec [⟨1, 1, "a", "hi", 0⟩] 2).2.2.1 (by decide),
    (deleteComment_spec [⟨1, 1, "a", "hi", 0⟩] 2).2.2.2 ⟨1, 1, "a", "hi", 0⟩⟩

/-! ## C7: comment-creation validation -/

/-- C7 (counterexample): the claim asserts a 400 rejection whenever the
author name is empty after trimming, but the file-backed handler checks only
falsiness, so the whitespace-only author `" "` is accepted with 201 and a
record is created. -/
theorem postCommentFile_accepts_whitespace_author :
    jsTrim " " = "" ∧
    postCommentFile [] 1 " " "hi" 5 = ⟨[⟨5, 1, " ", "hi", 5⟩], 201, none, none⟩ ∧
    (postCommentFile [] 1 " " "hi" 5).status ≠ 400 := by
  refine ⟨by decide, ?_, by decide⟩
  decide

/-- C7 (amended): the database-backed variant rejects with 400 exactly when
the author name or comment text is empty after trimming (whitespace-only
included) and accepts otherwise, never writing on rejection; the file-backed
variant rejects only when a field is the empty string, so whitespace-only
values pass its validation. -/
theorem postComment_validation (store db : List Comment) (eventId : Int)
    (authorName commentText : String) (newId now : Int) :
    ((postCommentDb db eventId authorName commentText newId now).status = 400 ↔
      (jsTrim authorName = "" ∨ jsTrim commentText = "")) ∧
    ((postCommentDb db eventId authorName commentText newId now).status = 400 →
      (postCommentDb db eventId authorName commentText newId now).store = db) ∧
    ((postCommentDb db eventId authorName commentText newId now).status = 201 ↔
      (jsTrim authorName ≠ "" ∧ jsTrim commentText ≠ "")) ∧
    ((postCommentFile store eventId authorName commentText now).status = 400 ↔
      (authorName = "" ∨ commentText = "")) ∧
    ((postCommentFile store eventId authorName commentText now).status = 400 →
      (postCommentFile store eventId authorName commentText now).store = store) := by
  unfold postCommentDb postCommentFile
  split_ifs with h1 h2 h3 <;> simp_all

/-- C7 (witness): the validation characterization at concrete inputs — the
database variant rejects the whitespace-only author `" "` without writing,
the file-backed variant rejects the empty author `""` without writing. -/
theorem postComment_validation_witness :
    (postCommentDb [] 1 " " "hi" 5 5).status = 400 ∧
    (postCommentDb [] 1 " " "hi" 5 5).store = [] ∧
    (postCommentFile [] 1 "" "hi" 5).status = 400 ∧
    (postCommentFile [] 1 "" "hi" 5).store = [] :=
  ⟨(postComment_validation [] [] 1 " " "hi" 5 5).1.mpr (Or.inl (by decide)),
    (postComment_validation [] [] 1 " " "hi" 5 5).2.1
      ((postComment_validation [] [] 1 " " "hi" 5 5).1.mpr (Or.inl (by decide))),
    (postComment_validation [] [] 1 "" "hi" 5 5).2.2.2.1.mpr (Or.inl rfl),
    (postComment_validation [] [] 1 "" "hi" 5 5).2.2.2.2
      ((postComment_validation [] [] 1 "" "hi" 5 5).2.2.2.1.mpr (Or.inl rfl))⟩

/-! ## C3: attendance uniqueness -/

/-- The pair on which attendance uniqueness is enforced. -/
def attendanceKey (a : AttendanceRecord) : Int × String :=
  (a.event_id, a.user_name)

/-- C3: with a valid name and no prior record for the exact
`(eventId, trimmed userName)` pair, the first submission answers 201 and
appends exactly one record; resubmitting the same pair answers 400 with the
conflict message and leaves the store untouched; the same holds for the
database variant; and both write and removal operations preserve the
invariant that at most one record exists per `(event_id, user_name)` key. -/
theorem attend_twice_unique (store db : List AttendanceRecord) (eventId : Int)
    (userName : String) (newId now now2 : Int)
    (hname : jsTrim userName ≠ "")
    (hfresh : ∀ a ∈ store, ¬(a.event_id = eventId ∧ a.user_name = jsTrim userName))
    (hfreshDb : ∀ a ∈ db, ¬(a.event_id = eventId ∧ a.user_name = jsTrim userName)) :
    postAttend store eventId userName now =
      ⟨store ++ [⟨now, eventId, jsTrim userName, now⟩], 201, none, none⟩ ∧
    postAttend (store ++ [⟨now, eventId, jsTrim userName, now⟩]) eventId userName now2 =
      ⟨store ++ [⟨now, eventId, jsTrim userName, now⟩], 400,
        some "Already marked as attending", none⟩ ∧
    postAttendDb db eventId userName newId now =
      ⟨db ++ [⟨newId, eventId, jsTrim userName, now⟩], 201, none, none⟩ ∧
    postAttendDb (db ++ [⟨newId, eventId, jsTrim userName, now⟩]) eventId userName newId now2 =
      ⟨db ++ [⟨newId, eventId, jsTrim userName, now⟩], 400,
        some "Already marked as attending", none⟩ ∧
    (∀ s eid n t, ((s.map attendanceKey).Nodup →
      (((postAttend s eid n t).store.map attendanceKey).Nodup))) ∧
    (∀ s eid n, ((s.map attendanceKey).Nodup →
      (((deleteAttend s eid n).store.map attendanceKey).Nodup))) := by
  have hany : store.any
      (fun a => a.event_id == eventId && a.user_name == jsTrim userName) = false := by
    simp only [List.any_eq_false, Bool.and_eq_true, beq_iff_eq, not_and]
    intro a ha h1 h2
    exact hfresh a ha ⟨h1, h2⟩
  have hanyDb : db.any
      (fun a => a.event_id == eventId && a.user_name == jsTrim userName) = false := by
    simp only [List.any_eq_false, Bool.and_eq_true, beq_iff_eq, not_and]
    intro a ha h1 h2
    exact hfreshDb a ha ⟨h1, h2⟩
  refine ⟨?_, ?_, ?_, ?_, ?_, ?_⟩
  · rw [postAttend, if_neg hname, hany]; rfl
  · rw [postAttend, if_neg hname, if_pos]
    simp
  · rw [postAttendDb, if_neg hname, hanyDb]; rfl
  · rw [postAttendDb, if_neg hname, if_pos]
    simp
  · intro s eid n t hnd
    rw [postAttend]
    split_ifs with h1 h2
    · exact hnd
    · exact hnd
    · simp only [List.map_append, List.map_cons, List.map_nil]
      rw [List.nodup_append]
      refine ⟨hnd, List.nodup_singleton _, ?_⟩
      intro k hk hk1
      simp only [List.mem_singleton] at hk1
      obtain ⟨a, ha, hka⟩ := List.mem_map.mp hk
      apply h2
      rw [List.any_eq_true]
      refine ⟨a, ha, ?_⟩
      have : a.event_id = eid ∧ a.user_name = jsTrim n := by
        have := hka.trans hk1
        exact ⟨congrArg Prod.fst this, congrArg Prod.snd this⟩
      simp [attendanceKey, this.1, this.2]
  · intro s eid n hnd
    rw [deleteAttend]
    split_ifs with h1
    · exact hnd
    · exact List.Nodup.sublist (List.Sublist.map _ (List.filter_sublist s)) hnd

/-- C3 (witness): starting from the empty store, attending event 1 as
`" bob "` creates the single trimmed record with 201; repeating it answers
400 with the conflict message and the unchanged store; key uniqueness is
preserved. -/
theorem attend_twice_unique_witness :
    postAttend [] 1 " bob " 5 = ⟨[⟨5, 1, "bob", 5⟩], 201, none, none⟩ ∧
    postAttend [⟨5, 1, "bob", 5⟩] 1 " bob " 6 =
      ⟨[⟨5, 1, "bob", 5⟩], 400, some "Already marked as attending", none⟩ := by
  have h := attend_twice_unique [] [] 1 " bob " 5 5 6 (by decide)
    (by simp) (by simp)
  have htrim : jsTrim " bob " = "bob" := by decide
  refine ⟨?_, ?_⟩
  · have := h.1
    rw [htrim] at this
    simpa using this
  · have := h.2.1
    rw [htrim] at this
    simpa using this

/-! ## C4: rating validation -/

/-- C4 (counterexample): the claim asserts every rating that is not an
integer in [1,5] is rejected with 400 and creates no record, but the
submission `rating = 5/2` (2.5) passes the range check `rating < 1 ||
rating > 5`, is answered 201, and a record (with the truncated value 2) is
created — in both the file-backed and the database variant. -/
theorem postRating_accepts_noninteger_in_range :
    (¬ ∃ n : Int, ((5 : ℚ) / 2) = (n : ℚ)) ∧
    postRating [] 1 "alice" (5 / 2) 7 = ⟨[⟨7, 1, "alice", 2, 7⟩], 201, none, none⟩ ∧
    postRatingDb [] 1 "alice" (5 / 2) 9 7 = ⟨[⟨9, 1, "alice", 2, 7⟩], 201, none, none⟩ := by
  refine ⟨?_, ?_, ?_⟩
  · rintro ⟨n, hn⟩
    have h2 : ((2 * n : Int) : ℚ) = 5 := by
      push_cast
      rw [← hn]
      ring
    have h3 : (2 * n : Int) = 5 := by exact_mod_cast h2
    omega
  · norm_num [postRating, jsParseInt, show jsTrim "alice" = "alice" from by decide,
      show ("alice" = "") = False from by decide]
  · norm_num [postRatingDb, jsParseInt, show jsTrim "alice" = "alice" from by decide,
      show ("alice" = "") = False from by decide]

/-- C4 (amended): every rating submission whose value is falsy (`0`), below
1 or above 5 is rejected with status 400 and the store is unchanged (no
record, hence no partial write), in both variants; numeric values inside
[1,5] — including non-integers such as 2.5 — pass the range validation. -/
theorem postRating_rejects_out_of_range (store db : List RatingRecord) (eventId : Int)
    (userName : String) (rating : ℚ) (newId now : Int)
    (h : rating = 0 ∨ rating < 1 ∨ rating > 5) :
    (postRating store eventId userName rating now).status = 400 ∧
    (postRating store eventId userName rating now).store = store ∧
    (postRatingDb db eventId userName rating newId now).status = 400 ∧
    (postRatingDb db eventId userName rating newId now).store = db := by
  rw [postRating, postRatingDb]
  split_ifs <;> simp_all

/-- C4 (witness): the amended rejection at the concrete out-of-range inputs
`0` and `6` on the empty store (the claim's own examples). -/
theorem postRating_rejects_out_of_range_witness :
    ((postRating [] 1 "alice" 0 7).status = 400 ∧
      (postRating [] 1 "alice" 0 7).store = [] ∧
      (postRatingDb [] 1 "alice" 0 9 7).status = 400 ∧
      (postRatingDb [] 1 "alice" 0 9 7).store = []) ∧
    ((postRating [] 1 "alice" 6 7).status = 400 ∧
      (postRating [] 1 "alice" 6 7).store = [] ∧
      (postRatingDb [] 1 "alice" 6 9 7).status = 400 ∧
      (postRatingDb [] 1 "alice" 6 9 7).store = []) :=
  ⟨postRating_rejects_out_of_range [] [] 1 "alice" 0 9 7 (Or.inl rfl),
    postRating_rejects_out_of_range [] [] 1 "alice" 6 9 7 (Or.inr (Or.inr (by norm_num)))⟩

/-! ## C9: stored ratings are parseInt-truncated integers -/

/-- C9: an accepted rating submission stores `parseInt(rating)`: every
record of the written store either was already present or carries the
truncated integer value; consequently, if every stored rating is an integer
before a submission it still is afterwards (in both variants), and the
accepted non-integer payload 2.5 is persisted as 2. -/
theorem postRating_stores_integer (store db : List RatingRecord) (eventId : Int)
    (userName : String) (rating : ℚ) (newId now : Int)
    (hint : ∀ r ∈ store, ∃ z : Int, r.rating = (z : ℚ))
    (hintDb : ∀ r ∈ db, ∃ z : Int, r.rating = (z : ℚ)) :
    (∀ r ∈ (postRating store eventId userName rating now).store,
      r ∈ store ∨ r.rating = (jsParseInt rating : ℚ)) ∧
    (∀ r ∈ (postRating store eventId userName rating now).store,
      ∃ z : Int, r.rating = (z : ℚ)) ∧
    (∀ r ∈ (postRatingDb db eventId userName rating newId now).store,
      ∃ z : Int, r.rating = (z : ℚ)) ∧
    postRating [] 1 "alice" (5 / 2) 7 = ⟨[⟨7, 1, "alice", 2, 7⟩], 201, none, none⟩ := by
  refine ⟨?_, ?_, ?_, ?_⟩
  · intro r hr
    rw [postRating] at hr
    split_ifs at hr
    · exact Or.inl hr
    · exact Or.inl hr
    · exact Or.inl hr
    · rcases List.mem_append.mp hr with h | h
      · exact Or.inl h
      · right
        rw [List.mem_singleton] at h
        rw [h]
  · intro r hr
    rw [postRating] at hr
    split_ifs at hr
    · exact hint r hr
    · exact hint r hr
    · exact hint r hr
    · rcases List.mem_append.mp hr with h | h
      · exact hint r h
      · rw [List.mem_singleton] at h
        exact ⟨jsParseInt rating, by rw [h]⟩
  · intro r hr
    rw [postRatingDb] at hr
    split_ifs at hr
    · exact hintDb r hr
    · exact hintDb r hr
    · exact hintDb r hr
    · rcases List.mem_append.mp hr with h | h
      · exact hintDb r h
      · rw [List.mem_singleton] at h
        exact ⟨jsParseInt rating, by rw [h]⟩
  · norm_num [postRating, jsParseInt, show jsTrim "alice" = "alice" from by decide,
      show ("alice" = "") = False from by decide]

/-- C9 (witness): submitting 2.5 to the empty store persists the integer 2,
and the written store holds only integer ratings. -/
theorem postRating_stores_integer_witness :
    (∀ r ∈ (postRating [] 1 "alice" (5 / 2) 7).store,
      r ∈ ([] : List RatingRecord) ∨ r.rating = (jsParseInt (5 / 2) : ℚ)) ∧
    (∀ r ∈ (postRating [] 1 "alice" (5 / 2) 7).store, ∃ z : Int, r.rating = (z : ℚ)) :=
  ⟨(postRating_stores_integer [] [] 1 "alice" (5 / 2) 9 7
      (by simp) (by simp)).1,
    (postRating_stores_integer [] [] 1 "alice" (5 / 2) 9 7
      (by simp) (by simp)).2.1⟩

/-! ## C10: removal matches untrimmed names -/

/-- C10: the submission handler stores user names trimmed (every record it
appends has `user_name = jsTrim userName`), while the removal handler
matches the submitted name verbatim; hence on a store whose names are all
trimmed, a removal request whose name differs from a stored name only by
surrounding whitespace (`jsTrim userName ≠ userName`) answers 200 with the
success message yet leaves the store completely unchanged. -/
theorem deleteAttend_untrimmed_noop (store : List AttendanceRecord) (eventId : Int)
    (userName : String)
    (hstore : ∀ a ∈ store, jsTrim a.user_name = a.user_name)
    (hws : jsTrim userName ≠ userName) :
    deleteAttend store eventId userName =
      ⟨store, 200, none, some "Attendance removed successfully"⟩ ∧
    (∀ s eid n t, ∀ a ∈ (postAttend s eid n t).store, a ∈ s ∨ a.user_name = jsTrim n) := by
  constructor
  · have hne : userName ≠ "" := by
      intro h
      exact hws (by rw [h]; rfl)
    rw [deleteAttend, if_neg hne]
    have : store.filter
        (fun a => !(a.event_id == eventId && a.user_name == userName)) = store := by
      refine List.filter_eq_self.mpr fun a ha => ?_
      simp only [Bool.not_eq_eq_eq_not, Bool.not_true, Bool.and_eq_false_iff, beq_eq_false_iff_ne,
        ne_eq]
      by_cases hname : a.user_name = userName
      · exfalso
        apply hws
        rw [← hname, hstore a ha, hname]
      · exact Or.inr hname
    rw [this]
  · intro s eid n t a ha
    rw [postAttend] at ha
    split_ifs at ha
    · exact Or.inl ha
    · exact Or.inl ha
    · rcases List.mem_append.mp ha with h | h
      · exact Or.inl h
      · right
        rw [List.mem_singleton] at h
        rw [h]

/-- C10 (witness): with the single stored (trimmed) attendee `"alice"` of
event 1, removing `" alice"` reports success and removes nothing. -/
theorem deleteAttend_untrimmed_noop_witness :
    deleteAttend [⟨0, 1, "alice", 0⟩] 1 " alice" =
      ⟨[⟨0, 1, "alice", 0⟩], 200, none, some "Attendance removed successfully"⟩ :=
  (deleteAttend_untrimmed_noop [⟨0, 1, "alice", 0⟩] 1 " alice"
    (by intro a ha; simp only [List.mem_singleton] at ha; rw [ha]; decide)
    (by decide)).1

/-! ## C5: organizer gate -/

/-- C5: a request with no Authorization header is answered 401; a request
whose (nonempty) credential verifies to an identity that the `users` table
does not contain is answered 403, as is one whose identity's role is not
`"organizer"`; and control reaches the CRUD handler only for identities
whose looked-up role equals `"organizer"`. -/
theorem requireOrganizer_gate (env : AuthEnv) :
    requireOrganizer env none = .reject 401 "Authorization header required" ∧
    (∀ hdr user, jsReplaceOnce hdr "Bearer " ≠ "" →
      env.getUser (jsReplaceOnce hdr "Bearer ") = some user →
      env.usersTable user.email = none →
      requireOrganizer env (some hdr) = .reject 403 "User not found") ∧
    (∀ hdr user userData, jsReplaceOnce hdr "Bearer " ≠ "" →
      env.getUser (jsReplaceOnce hdr "Bearer ") = some user →
      env.usersTable user.email = some userData →
      userData.role ≠ "organizer" →
      requireOrganizer env (some hdr) = .reject 403 "Organizer access required") ∧
    (∀ hdr userData, requireOrganizer env (some hdr) = .proceed userData →
      userData.role = "organizer") := by
  refine ⟨rfl, ?_, ?_, ?_⟩
  · intro hdr user htok hget htab
    rw [requireOrganizer]
    simp only [if_neg htok, hget, htab]
  · intro hdr user userData htok hget htab hrole
    rw [requireOrganizer]
    simp only [if_neg htok, hget, htab, if_pos hrole]
  · intro hdr userData hrun
    rw [requireOrganizer] at hrun
    by_cases h1 : jsReplaceOnce hdr "Bearer " = ""
    · rw [if_pos h1] at hrun
      exact absurd hrun (by simp)
    · rw [if_neg h1] at hrun
      rcases hget : env.getUser (jsReplaceOnce hdr "Bearer ") with _ | user <;>
        rw [hget] at hrun <;> dsimp only at hrun
      · exact absurd hrun (by simp)
      · rcases htab : env.usersTable user.email with _ | u <;>
          rw [htab] at hrun <;> dsimp only at hrun
        · exact absurd hrun (by simp)
        · by_cases h2 : u.role ≠ "organizer"
          · rw [if_pos h2] at hrun
            exact absurd hrun (by simp)
          · rw [if_neg h2] at hrun
            rw [not_ne_iff] at h2
            injection hrun with h3
            rw [← h3]
            exact h2

/-- A concrete environment for the organizer-gate witness: token `"tok-org"`
verifies to an organizer, `"tok-mem"` to a plain member, `"tok-ghost"` to an
identity absent from the `users` table. -/
def sampleAuthEnv : AuthEnv where
  getUser := fun t =>
    if t = "tok-org" then some ⟨"org@x"⟩
    else if t = "tok-mem" then some ⟨"mem@x"⟩
    else if t = "tok-ghost" then some ⟨"ghost@x"⟩
    else none
  usersTable := fun e =>
    if e = "org@x" then some ⟨"organizer", "Org", "org@x"⟩
    else if e = "mem@x" then some ⟨"member", "Mem", "mem@x"⟩
    else none

/-- C5 (witness): against `sampleAuthEnv`, a missing header yields 401, an
unknown identity yields 403 `"User not found"`, a member yields 403
`"Organizer access required"`, and a handler-reaching request is an
organizer's. -/
theorem requireOrganizer_gate_witness :
    requireOrganizer sampleAuthEnv none = .reject 401 "Authorization header required" ∧
    requireOrganizer sampleAuthEnv (some "Bearer tok-ghost") = .reject 403 "User not found" ∧
    requireOrganizer sampleAuthEnv (some "Bearer tok-mem") =
      .reject 403 "Organizer access required" ∧
    ((⟨"organizer", "Org", "org@x"⟩ : DbUser).role = "organizer") :=
  ⟨(requireOrganizer_gate sampleAuthEnv).1,
    (requireOrganizer_gate sampleAuthEnv).2.1 "Bearer tok-ghost" ⟨"ghost@x"⟩
      (by decide) (by decide) (by decide),
    (requireOrganizer_gate sampleAuthEnv).2.2.1 "Bearer tok-mem" ⟨"mem@x"⟩
      ⟨"member", "Mem", "mem@x"⟩ (by decide) (by decide) (by decide) (by decide),
    (requireOrganizer_gate sampleAuthEnv).2.2.2 "Bearer tok-org" ⟨"organizer", "Org", "org@x"⟩
      (by decide)⟩

/-! ## C6: interest replacement stores the deduplicated set -/

/-- C6: replacing a user's interests stores exactly the deduplicated input
ids — after the replacement the user's stored category ids are `jsSetDedup
arr`, which is duplicate-free and has the same members as the input — and
concretely, replacing with `["2","2","3"]` and reading `/interests/me`
returns exactly categories 2 and 3, each once. -/
theorem replaceInterests_dedup :
    (∀ (store : List (String × String)) (userId : String) (arr : List String),
      myInterestIds (replaceInterests store userId (some arr)).1 userId = jsSetDedup arr ∧
      (jsSetDedup arr).Nodup ∧
      (∀ c, c ∈ jsSetDedup arr ↔ c ∈ arr)) ∧
    replaceInterests [] "u" (some ["2", "2", "3"]) =
      ([("u", "2"), ("u", "3")], 200, ["2", "3"]) ∧
    getMyInterests (replaceInterests [] "u" (some ["2", "2", "3"])).1
      [("1", "Art"), ("2", "Music"), ("3", "Tech")] "u" =
      [("2", "Music"), ("3", "Tech")] := by
  refine ⟨?_, by decide, by decide⟩
  intro store userId arr
  refine ⟨?_, jsSetDedup_nodup arr, fun c => jsSetDedup_mem c arr⟩
  by_cases hc : jsSetDedup arr = []
  · simp [replaceInterests, myInterestIds, hc, List.filter_filter]
  · simp only [replaceInterests, if_neg hc, myInterestIds]
    rw [List.filter_append]
    have h1 : (store.filter (fun r => !(r.1 == userId))).filter (fun r => r.1 == userId)
        = [] := by
      refine List.filter_eq_nil_iff.mpr fun a ha => ?_
      have := (List.mem_filter.mp ha).2
      simp_all
    have h2 : ((jsSetDedup arr).map (fun c => (userId, c))).filter (fun r => r.1 == userId)
        = (jsSetDedup arr).map (fun c => (userId, c)) := by
      refine List.filter_eq_self.mpr fun a ha => ?_
      obtain ⟨c, _, rfl⟩ := List.mem_map.mp ha
      simp
    rw [h1, h2, List.nil_append, List.map_map]
    simp [Function.comp]

/-! ## C2: rating aggregation -/

/-- C2: for every rating store and event, `totalRatings` is the number of
that event's rows and `averageRating` is their mean rounded to one decimal
(0 for no rows); concretely the multiset `[5,5,5,4]` is reported as exactly
4.8 and the empty store as average 0 with count 0. -/
theorem getRating_aggregation :
    (∀ (store : List RatingRecord) (eventId : Int),
      (getRating store eventId).totalRatings =
        (store.filter (fun r => r.event_id == eventId)).length ∧
      (getRating store eventId).averageRating =
        (if (store.filter (fun r => r.event_id == eventId)).length = 0 then 0
         else toFixed1
            (((store.filter (fun r => r.event_id == eventId)).map (fun r => r.rating)).sum /
              ((store.filter (fun r => r.event_id == eventId)).length : ℚ)))) ∧
    getRating [⟨1, 1, "a", 5, 10⟩, ⟨2, 1, "b", 5, 9⟩, ⟨3, 1, "c", 5, 8⟩, ⟨4, 1, "d", 4, 7⟩] 1 =
      ⟨4.8, 4, [⟨1, 1, "a", 5, 10⟩, ⟨2, 1, "b", 5, 9⟩, ⟨3, 1, "c", 5, 8⟩, ⟨4, 1, "d", 4, 7⟩]⟩ ∧
    getRating [] 1 = ⟨0, 0, []⟩ := by
  refine ⟨?_, ?_, ?_⟩
  · intro store eventId
    have hperm := sortByDesc_perm (fun a b => b.created_at < a.created_at)
      (store.filter (fun r => r.event_id == eventId))
    constructor
    · exact hperm.length_eq
    · rw [getRating]
      dsimp only
      rw [hperm.length_eq, (hperm.map (fun r => r.rating)).sum_eq]
      by_cases h : (store.filter (fun r => r.event_id == eventId)).length = 0
      · simp [h]
      · rw [if_neg h, if_pos (Nat.pos_of_ne_zero h)]
  · norm_num [getRating, sortByDesc, insertDesc, toFixed1]
  · norm_num [getRating, sortByDesc, insertDesc, toFixed1]
